import Mathlib

/-!
# odo catalog list components

A shallow embedding of `pkg/odo/cli/catalog/list/components.go`
(`ListComponentsOptions` with `Complete`, `Validate`, `Run`,
`printCatalogList`, `printDevfileCatalogList`) and the properties of the
command's behaviour proved over it.

Conventions of the embedding:

* Go slices are `List`s; `append(s, x)` is `s ++ [x]`, `len(s)` is `s.length`.
* Go `error` values are carried by their message; `nil` is `none`.
* The `tabwriter` handed to `fmt.Fprintln` is the list of chunks written to it,
  one chunk per `Fprintln` call, in call order.
* Collaborators that live outside the file (`catalog.SliceSupportedTags`,
  the two fetches, the feature flags, `FilterHiddenComponents`) are parameters.
* The closures of `Complete` run concurrently: each is the list of its
  top-level statements, and a schedule says which closure moves next.
-/

namespace Odo

/-! ## Data model -/

/-- Go `error`, carried by its message. -/
abbrev Error := String

/-- The part of `metav1.ObjectMeta` the command reads. -/
structure ObjectMeta where
  Name : String
  Namespace : String
  deriving DecidableEq, Repr

/-- Mirror of `catalog.ComponentSpec`: the tag sequences of an image entry. -/
structure ComponentSpec where
  AllTags : List String
  NonHiddenTags : List String
  SupportedTags : List String
  deriving DecidableEq, Repr

/-- Mirror of `catalog.ComponentType`: an image based catalog entry. -/
structure ComponentType where
  ObjectMeta : ObjectMeta
  Spec : ComponentSpec
  deriving DecidableEq, Repr

/-- Mirror of `catalog.ComponentTypeList`. -/
structure ComponentTypeList where
  Items : List ComponentType
  deriving DecidableEq, Repr

/-- Mirror of `catalog.Registry`, as far as it is read. -/
structure Registry where
  Name : String
  deriving DecidableEq, Repr

/-- Mirror of `catalog.DevfileComponentType`: a devfile catalog entry. -/
structure DevfileComponentType where
  Name : String
  Description : String
  Support : Bool
  Registry : Registry
  deriving DecidableEq, Repr

/-- Mirror of `catalog.DevfileComponentTypeList`; `DevfileRegistries = none`
is the Go `nil` slice. -/
structure DevfileComponentTypeList where
  DevfileRegistries : Option (List Registry)
  Items : List DevfileComponentType
  deriving DecidableEq, Repr

/-- The part of `genericclioptions.Context` the command reads: the active
project (namespace). The embedded pointer is represented by the value it
points to. -/
structure Context where
  Project : String
  deriving DecidableEq, Repr

/-- Mirror of `ListComponentsOptions` (lines 29-38). -/
structure ListComponentsOptions where
  listAllDevfileComponents : Bool
  catalogList : ComponentTypeList
  catalogDevfileList : DevfileComponentTypeList
  Context : Context
  deriving DecidableEq, Repr

/-- Mirror of `metav1.TypeMeta`. -/
structure TypeMeta where
  Kind : String
  APIVersion : String
  deriving DecidableEq, Repr

/-- Mirror of `combinedCatalogList` (lines 91-96). -/
structure combinedCatalogList where
  TypeMeta : TypeMeta
  ObjectMeta : ObjectMeta
  S2iItems : List ComponentType
  DevfileItems : List DevfileComponentType
  deriving DecidableEq, Repr

/-- What one `Run` hands to its sink: the document given to
`machineoutput.OutputSuccess`, or the chunks written to the tab writer. -/
inductive Output where
  | json (doc : combinedCatalogList)
  | table (w : List String)
  deriving DecidableEq, Repr

/-- The tag-support lookup `catalog.SliceSupportedTags`: the supported and the
unsupported tags of an entry. -/
abbrev TagLookup := ComponentType → List String × List String

/-! ## Formatting helpers of the Go standard library -/

/-- Text of `fmt.Sprintln(operands...)` for string operands: a space between
every two operands and a newline at the end. -/
def Sprintln (operands : List String) : String :=
  String.intercalate " " operands ++ "\n"

/-- Effect of `fmt.Fprintln(w, operands...)` on the writer. -/
def Fprintln (w : List String) (operands : List String) : List String :=
  w ++ [Sprintln operands]

/-! ## Validate -/

/-- Mirror of `Validate` (lines 83-89). -/
def Validate (o : ListComponentsOptions) : Option Error :=
  if o.catalogList.Items.length = 0 ∧ o.catalogDevfileList.Items.length = 0 then
    some "no deployable components found"
  else
    none

/-! ## Table rendering -/

/-- Label computed by lines 203-216 of `printCatalogList` for one row
`component` of the section `catalogList`. -/
def componentName (o : ListComponentsOptions) (catalogList : List ComponentType)
    (component : ComponentType) : String :=
  if component.ObjectMeta.Namespace = o.Context.Project then
    catalogList.foldl
      (fun name comp =>
        if comp.ObjectMeta.Name = component.ObjectMeta.Name
            ∧ component.ObjectMeta.Namespace ≠ comp.ObjectMeta.Namespace then
          component.ObjectMeta.Name ++ " (*)"
        else name)
      component.ObjectMeta.Name
  else
    component.ObjectMeta.Name

/-- Mirror of `printCatalogList` (lines 201-219). -/
def printCatalogList (o : ListComponentsOptions) (w : List String)
    (catalogList : List ComponentType) (supported : String) : List String :=
  catalogList.foldl
    (fun w component =>
      Fprintln w [componentName o catalogList component, "\t",
        component.ObjectMeta.Namespace, "\t",
        String.intercalate "," component.Spec.NonHiddenTags, "\t", supported])
    w

/-- Mirror of `printDevfileCatalogList` (lines 221-225). -/
def printDevfileCatalogList (w : List String)
    (catalogDevfileList : List DevfileComponentType) (supported : String) : List String :=
  catalogDevfileList.foldl
    (fun w devfileComponent =>
      Fprintln w [devfileComponent.Name, "\t", devfileComponent.Description, "\t",
        devfileComponent.Registry.Name, "\t", supported])
    w

/-- Mirror of `printCatalogList` (lines 201-219) with the backing array of the
slice argument carried as state next to the writer. Iteration `i` of the outer
loop reads element `i` of the array as it is at that moment, and the inner loop
scans the array as it is at that moment. The body assigns the local
`componentName` only, never an element of the array or a field of `component`
or `comp` (which are copies), so each iteration hands the array on as it found
it. The result is the writer and the array after the call. -/
def printCatalogListOnSlice (o : ListComponentsOptions) (w : List String)
    (catalogList : List ComponentType) (supported : String) :
    List String × List ComponentType :=
  (List.range catalogList.length).foldl
    (fun st i =>
      match st.2[i]? with
      | some component =>
        (Fprintln st.1 [componentName o st.2 component, "\t",
          component.ObjectMeta.Namespace, "\t",
          String.intercalate "," component.Spec.NonHiddenTags, "\t", supported], st.2)
      | none => st)
    (w, catalogList)

/-! ## Run -/

/-- Entry `image` with `Spec.NonHiddenTags` assigned. -/
def setNonHiddenTags (image : ComponentType) (tags : List String) : ComponentType :=
  { image with Spec := { image.Spec with NonHiddenTags := tags } }

/-- Entry `image` with `Spec.SupportedTags` assigned. -/
def setSupportedTags (image : ComponentType) (tags : List String) : ComponentType :=
  { image with Spec := { image.Spec with SupportedTags := tags } }

/-- Structured-mode loop of `Run` (lines 101-105): entry `i` of the listing is
read, classified, and its `SupportedTags` overwritten in place. -/
def annotateSupportedTags (SliceSupportedTags : TagLookup)
    (items : List ComponentType) : List ComponentType :=
  (List.range items.length).foldl
    (fun items i =>
      match items[i]? with
      | some image => items.set i (setSupportedTags image (SliceSupportedTags image).1)
      | none => items)
    items

/-- Table-mode image loop of `Run` (lines 121-132): the pair
`(supCatalogList, unsupCatalogList)`. The loop variable `image` is a copy, so
each assignment changes the copy only, and `append` stores the copy as it is at
that moment. -/
def partitionImages (SliceSupportedTags : TagLookup)
    (items : List ComponentType) : List ComponentType × List ComponentType :=
  items.foldl
    (fun acc image =>
      let supported := (SliceSupportedTags image).1
      let unsupported := (SliceSupportedTags image).2
      let step1 : ComponentType × List ComponentType :=
        if supported.length ≠ 0 then
          (setNonHiddenTags image supported, acc.1 ++ [setNonHiddenTags image supported])
        else (image, acc.1)
      let step2 : ComponentType × List ComponentType :=
        if unsupported.length ≠ 0 then
          (setNonHiddenTags step1.1 unsupported, acc.2 ++ [setNonHiddenTags step1.1 unsupported])
        else (step1.1, acc.2)
      (step1.2, step2.2))
    ([], [])

/-- Table-mode devfile loop of `Run` (lines 134-140): the pair
`(supDevfileCatalogList, unsupDevfileCatalogList)`. -/
def partitionDevfiles (items : List DevfileComponentType) :
    List DevfileComponentType × List DevfileComponentType :=
  items.foldl
    (fun acc devfileComponent =>
      if devfileComponent.Support then (acc.1 ++ [devfileComponent], acc.2)
      else (acc.1, acc.2 ++ [devfileComponent]))
    ([], [])

/-- Image section of table-mode `Run` (lines 142-157). -/
def writeImageSection (o : ListComponentsOptions) (w : List String)
    (supCatalogList unsupCatalogList : List ComponentType) : List String :=
  if supCatalogList.length ≠ 0 ∨ unsupCatalogList.length ≠ 0 then
    let w := Fprintln w ["Odo OpenShift Components:"]
    let w := Fprintln w ["NAME", "\t", "PROJECT", "\t", "TAGS", "\t", "SUPPORTED"]
    let w := if supCatalogList.length ≠ 0 then printCatalogList o w supCatalogList "YES" else w
    let w := if unsupCatalogList.length ≠ 0 then printCatalogList o w unsupCatalogList "NO" else w
    Fprintln w []
  else w

/-- Devfile section of table-mode `Run` (lines 159-174). -/
def writeDevfileSection (o : ListComponentsOptions) (w : List String)
    (supDevfileCatalogList unsupDevfileCatalogList : List DevfileComponentType) : List String :=
  if supDevfileCatalogList.length ≠ 0
      ∨ (o.listAllDevfileComponents = true ∧ unsupDevfileCatalogList.length ≠ 0) then
    let w := Fprintln w ["Odo Devfile Components:"]
    let w := Fprintln w ["NAME", "\t", "DESCRIPTION", "\t", "REGISTRY", "\t", "SUPPORTED"]
    let w :=
      if supDevfileCatalogList.length ≠ 0 then
        printDevfileCatalogList w supDevfileCatalogList "YES"
      else w
    let w :=
      if o.listAllDevfileComponents = true ∧ unsupDevfileCatalogList.length ≠ 0 then
        printDevfileCatalogList w unsupDevfileCatalogList "NO"
      else w
    Fprintln w []
  else w

/-- Mirror of `Run` (lines 99-179). `isJSON` is the value of `log.IsJSON()`.
The result is the options after the call and what was emitted. -/
def Run (isJSON : Bool) (SliceSupportedTags : TagLookup) (o : ListComponentsOptions) :
    ListComponentsOptions × Output :=
  if isJSON then
    let o := { o with catalogList :=
      { o.catalogList with Items := annotateSupportedTags SliceSupportedTags o.catalogList.Items } }
    let combinedList : combinedCatalogList :=
      { TypeMeta := { Kind := "List", APIVersion := "odo.dev/v1alpha1" }
        ObjectMeta := { Name := "", Namespace := "" }
        S2iItems := o.catalogList.Items
        DevfileItems := o.catalogDevfileList.Items }
    (o, Output.json combinedList)
  else
    let w : List String := []
    let images := partitionImages SliceSupportedTags o.catalogList.Items
    let devfiles := partitionDevfiles o.catalogDevfileList.Items
    let w := writeImageSection o w images.1 images.2
    let w := writeDevfileSection o w devfiles.1 devfiles.2
    (o, Output.table w)

/-! ## Structured-mode serialization -/

/-- Value of one top-level member of the JSON object emitted for a
`combinedCatalogList`. -/
inductive JSONMember where
  | string (s : String)
  | metadata (m : ObjectMeta)
  | s2iItems (items : List ComponentType)
  | devfileItems (items : List DevfileComponentType)
  deriving DecidableEq, Repr

/-- Top-level members that `encoding/json` produces for a
`combinedCatalogList`, in declaration order, following the struct tags of
lines 91-96 and of the inlined `metav1.TypeMeta` (`kind,omitempty`,
`apiVersion,omitempty`, `metadata,omitempty`, `s2iItems,omitempty`,
`devfileItems,omitempty`). A member tagged `omitempty` is left out when its
value is empty: the empty string, or a slice of length zero. A struct value is
never empty, so `metadata` is always present. -/
def jsonMembers (c : combinedCatalogList) : List (String × JSONMember) :=
  (if c.TypeMeta.Kind = "" then [] else [("kind", JSONMember.string c.TypeMeta.Kind)])
  ++ (if c.TypeMeta.APIVersion = "" then []
      else [("apiVersion", JSONMember.string c.TypeMeta.APIVersion)])
  ++ [("metadata", JSONMember.metadata c.ObjectMeta)]
  ++ (if c.S2iItems.length = 0 then [] else [("s2iItems", JSONMember.s2iItems c.S2iItems)])
  ++ (if c.DevfileItems.length = 0 then []
      else [("devfileItems", JSONMember.devfileItems c.DevfileItems)])

/-- Top-level members of the JSON object that `Run` emits; none in table mode,
where no document is emitted. -/
def emittedMembers (out : Output) : List (String × JSONMember) :=
  match out with
  | Output.json doc => jsonMembers doc
  | Output.table _ => []

/-- Member names of the JSON object that `Run` emits. -/
def emittedKeys (out : Output) : List String :=
  (emittedMembers out).map Prod.fst

/-! ## Complete -/

/-- Ambient collaborators of `Complete`: the two feature flags, the context
built from the command, and the results of the two fetches. -/
structure Env where
  IsPushTargetDocker : Bool
  IsExperimentalModeEnabled : Bool
  NewContext : Context
  ListComponents : Context → ComponentTypeList × Option Error
  FilterHiddenComponents : List ComponentType → List ComponentType
  ListDevfileComponents : DevfileComponentTypeList × Option Error

/-- Variables the closures of `Complete` share: the options, the named result
`err`, and the diagnostics logged so far. -/
structure CompleteState where
  o : ListComponentsOptions
  err : Option Error
  diagnostics : List String

/-- Which of the two closures a task holds. -/
inductive FetchKind where
  | image
  | devfile
  deriving DecidableEq, Repr

/-- One atomic step of a closure: a top-level statement of its body. It maps
the shared variables to their values after the statement, with the errors the
statement sent on `errChannel`. -/
abbrev TaskStep := CompleteState → CompleteState × List Error

/-- Mirror of `util.ConcurrentTask`: the body of `ToRun` as the sequence of its
top-level statements, in program order. -/
structure ConcurrentTask where
  kind : FetchKind
  steps : List TaskStep

/-- Closure of lines 53-64: the image fetch. First statement: the assignment of
line 54, which writes `o.catalogList` and the named result `err`. Second
statement: the `if` of lines 55-63, which reads `err`. -/
def imageTask (env : Env) : ConcurrentTask where
  kind := FetchKind.image
  steps :=
    [fun s =>
      let r := env.ListComponents s.o.Context
      ({ s with o := { s.o with catalogList := r.1 }, err := r.2 }, []),
     fun s =>
      match s.err with
      | some e =>
        if env.IsExperimentalModeEnabled then
          ({ s with diagnostics := s.diagnostics ++
              ["Please log in to an OpenShift cluster to list OpenShift/s2i components"] }, [])
        else
          (s, [e])
      | none =>
        ({ s with o := { s.o with catalogList :=
            { s.o.catalogList with
              Items := env.FilterHiddenComponents s.o.catalogList.Items } } },
          [])]

/-- Closure of lines 68-76: the devfile fetch. First statement: the assignment
of line 69, which writes `o.catalogDevfileList` and the named result `err`.
Second statement: the registry warning of lines 70-72. Third statement: the
`if` of lines 73-75, which reads `err`. -/
def devfileTask (env : Env) : ConcurrentTask where
  kind := FetchKind.devfile
  steps :=
    [fun s =>
      let r := env.ListDevfileComponents
      ({ s with o := { s.o with catalogDevfileList := r.1 }, err := r.2 }, []),
     fun s =>
      (if s.o.catalogDevfileList.DevfileRegistries = none then
        { s with diagnostics := s.diagnostics ++
            ["Please run 'odo registry add <registry name> <registry URL>' to add registry for listing devfile components\n"] }
       else s, []),
     fun s =>
      match s.err with
      | some e => (s, [e])
      | none => (s, [])]

/-- Registration part of `Complete` (lines 48-77): the options after it and the
tasks added, in order. `tasks.Add` appends to the task set. -/
def registerTasks (env : Env) (o : ListComponentsOptions) :
    ListComponentsOptions × List ConcurrentTask :=
  let tasks : List ConcurrentTask := []
  let r : ListComponentsOptions × List ConcurrentTask :=
    if !env.IsPushTargetDocker then
      ({ o with Context := env.NewContext }, tasks ++ [imageTask env])
    else (o, tasks)
  let tasks := if env.IsExperimentalModeEnabled then r.2 ++ [devfileTask env] else r.2
  (r.1, tasks)

/-- Modelled from the spec: the error channel of `util.ConcurrentTasks.Run`,
which is not part of the file. A step changes the shared variables and the
errors it sends are received after those sent before. -/
def applyStep (step : TaskStep) (acc : CompleteState × List Error) :
    CompleteState × List Error :=
  ((step acc.1).1, acc.2 ++ (step acc.1).2)

/-- Modelled from the spec: the scheduling of `util.ConcurrentTasks.Run`, which
is not part of the file. The task of the given kind takes its next step; the
tasks still to finish and the shared variables after the step are returned.
A kind with no task, or whose task has finished, changes nothing. -/
def stepTask (kind : FetchKind) :
    List ConcurrentTask → CompleteState × List Error →
      List ConcurrentTask × (CompleteState × List Error)
  | [], acc => ([], acc)
  | task :: rest, acc =>
    if task.kind = kind then
      match task.steps with
      | [] => (task :: rest, acc)
      | step :: more => ({ task with steps := more } :: rest, applyStep step acc)
    else
      (task :: (stepTask kind rest acc).1, (stepTask kind rest acc).2)

/-- Modelled from the spec: the join of `util.ConcurrentTasks.Run`. Every task
that still has steps runs them to the end, task after task in registration
order. -/
def finishTasks (tasks : List ConcurrentTask) (acc : CompleteState × List Error) :
    CompleteState × List Error :=
  tasks.foldl (fun acc task => task.steps.foldl (fun acc step => applyStep step acc) acc) acc

/-- Modelled from the spec: `util.ConcurrentTasks.Run`, the task runner, is not
part of the file. The registered tasks run concurrently: `schedule` names, one
entry per step, the task that moves next, and when it ends the tasks run to
completion. The failures reported are collected in the order they were sent
and the first failure received is the result; there is no failure when no task
reported one. The empty schedule runs the tasks one after another, in
registration order. -/
def runTasks (schedule : List FetchKind) (tasks : List ConcurrentTask) (s : CompleteState) :
    CompleteState × Option Error :=
  let r := schedule.foldl (fun st kind => stepTask kind st.1 st.2) (tasks, (s, []))
  let acc := finishTasks r.1 r.2
  (acc.1, acc.2.head?)

/-- Mirror of `Complete` (lines 46-80) under a schedule of the two closures:
the shared variables after the tasks ran, and the returned error. -/
def Complete (schedule : List FetchKind) (env : Env) (o : ListComponentsOptions) :
    CompleteState × Option Error :=
  let r := registerTasks env o
  runTasks schedule r.2 { o := r.1, err := none, diagnostics := [] }

/-! ## Closed forms of the loops and sections -/

/-- Row kept by the supported branch of the image loop. -/
def supportedRow (SliceSupportedTags : TagLookup) (image : ComponentType) :
    Option ComponentType :=
  if (SliceSupportedTags image).1.length ≠ 0 then
    some { ObjectMeta := image.ObjectMeta
           Spec := { AllTags := image.Spec.AllTags
                     NonHiddenTags := (SliceSupportedTags image).1
                     SupportedTags := image.Spec.SupportedTags } }
  else none

/-- Row kept by the unsupported branch of the image loop. -/
def unsupportedRow (SliceSupportedTags : TagLookup) (image : ComponentType) :
    Option ComponentType :=
  if (SliceSupportedTags image).2.length ≠ 0 then
    some { ObjectMeta := image.ObjectMeta
           Spec := { AllTags := image.Spec.AllTags
                     NonHiddenTags := (SliceSupportedTags image).2
                     SupportedTags := image.Spec.SupportedTags } }
  else none

/-- Line written by `printCatalogList` for the row `component` of `catalogList`. -/
def catalogRow (o : ListComponentsOptions) (catalogList : List ComponentType)
    (supported : String) (component : ComponentType) : String :=
  Sprintln [componentName o catalogList component, "\t",
    component.ObjectMeta.Namespace, "\t",
    String.intercalate "," component.Spec.NonHiddenTags, "\t", supported]

/-- Line written by `printDevfileCatalogList` for one row. -/
def devfileRow (supported : String) (devfileComponent : DevfileComponentType) : String :=
  Sprintln [devfileComponent.Name, "\t", devfileComponent.Description, "\t",
    devfileComponent.Registry.Name, "\t", supported]

/-- Lines that table-mode `Run` writes for the image section. -/
def imageSection (SliceSupportedTags : TagLookup) (o : ListComponentsOptions) : List String :=
  writeImageSection o []
    (partitionImages SliceSupportedTags o.catalogList.Items).1
    (partitionImages SliceSupportedTags o.catalogList.Items).2

/-- Lines that table-mode `Run` writes for the devfile section. -/
def devfileSection (o : ListComponentsOptions) : List String :=
  writeDevfileSection o []
    (partitionDevfiles o.catalogDevfileList.Items).1
    (partitionDevfiles o.catalogDevfileList.Items).2

/-- Characters at which `text/tabwriter` ends a cell: horizontal and vertical
tab (newline and form feed end a cell too, by ending the line). -/
def isCellEnd (c : Char) : Bool := c == '\t' || c == '\x0b'

/-- Characters at which `text/tabwriter` ends a line: newline and form feed. -/
def isLineEnd (c : Char) : Bool := c == '\n' || c == '\x0c'

/-- Lines of a written text as `text/tabwriter` delimits them, each as its
cells in order: the text is cut into lines at newline and form feed, and each
line into cells at horizontal and vertical tab. Text after the last line break
belongs to no finished line; a chunk written by `Fprintln` has none. The escape
byte 0xff of `text/tabwriter` is no part of the encoding of any character of a
`String`, and HTML filtering is off (line 116). -/
def tabwriterLines (text : String) : List (List String) :=
  ((text.data.splitOnP isLineEnd).dropLast).map
    (fun line => (line.splitOnP isCellEnd).map String.mk)

/-- A field that holds none of the characters at which `text/tabwriter` ends a
cell or a line. -/
def plainField (field : String) : Bool :=
  field.data.all (fun c => !isCellEnd c && !isLineEnd c)

/-! ## Sample data used by the concrete statements -/

/-- A tag lookup that reports the tags "8" and "10" of an entry as supported
and every other tag of it as unsupported. -/
def sampleLookup : TagLookup := fun image =>
  (image.Spec.NonHiddenTags.filter (fun t => decide (t ∈ ["8", "10"])),
   image.Spec.NonHiddenTags.filter (fun t => decide (t ∉ ["8", "10"])))

/-- An image entry with the given name, namespace and tags. -/
def mkImage (name ns : String) (tags : List String) : ComponentType :=
  { ObjectMeta := { Name := name, Namespace := ns }
    Spec := { AllTags := tags, NonHiddenTags := tags, SupportedTags := [] } }

/-- A devfile entry with the given name and support flag. -/
def mkDevfile (name : String) (support : Bool) : DevfileComponentType :=
  { Name := name, Description := "sample", Support := support,
    Registry := { Name := "DefaultDevfileRegistry" } }

/-- Options holding the given listings, with active project "openshift". -/
def mkOptions (all : Bool) (images : List ComponentType)
    (devfiles : List DevfileComponentType) : ListComponentsOptions :=
  { listAllDevfileComponents := all
    catalogList := { Items := images }
    catalogDevfileList := { DevfileRegistries := none, Items := devfiles }
    Context := { Project := "openshift" } }

/-- An environment for `Complete`, experimental mode on and docker push target
off: the image fetch succeeds with one entry, the devfile fetch fails with
"registry unreachable". -/
def devfileDownEnv : Env where
  IsPushTargetDocker := false
  IsExperimentalModeEnabled := true
  NewContext := { Project := "openshift" }
  ListComponents := fun _ => ({ Items := [mkImage "nodejs" "openshift" ["8"]] }, none)
  FilterHiddenComponents := fun items => items
  ListDevfileComponents :=
    ({ DevfileRegistries := some [{ Name := "DefaultDevfileRegistry" }], Items := [] },
     some "registry unreachable")

/-- A supported devfile entry whose description holds a tab character. -/
def tabbedDevfile : DevfileComponentType :=
  { Name := "java", Description := "Java\tdevfile", Support := true,
    Registry := { Name := "DefaultDevfileRegistry" } }

/-- A supported devfile entry whose description holds a newline. -/
def twoLineDevfile : DevfileComponentType :=
  { Name := "java", Description := "line1\nline2", Support := true,
    Registry := { Name := "DefaultDevfileRegistry" } }

/-- Options with active project "openshift" holding a "nodejs" entry of the
active namespace with tags "8" and "old", and a "nodejs" entry of namespace
"other-ns" with the tag "10" only. -/
def twoNamespaces : ListComponentsOptions :=
  mkOptions false
    [mkImage "nodejs" "openshift" ["8", "old"], mkImage "nodejs" "other-ns" ["10"]] []

/-- An environment for `Complete`: the image fetch fails with "not logged in",
the devfile fetch succeeds with one entry. -/
def sampleEnv (docker experimental : Bool) : Env where
  IsPushTargetDocker := docker
  IsExperimentalModeEnabled := experimental
  NewContext := { Project := "openshift" }
  ListComponents := fun _ => ({ Items := [] }, some "not logged in")
  FilterHiddenComponents := fun items => items
  ListDevfileComponents :=
    ({ DevfileRegistries := some [{ Name := "DefaultDevfileRegistry" }],
       Items := [mkDevfile "java" true] }, none)

/-! ## The loops as list operations -/

theorem partitionImages_foldl (L : TagLookup) (items : List ComponentType)
    (acc : List ComponentType × List ComponentType) :
    items.foldl
      (fun acc image =>
        let supported := (L image).1
        let unsupported := (L image).2
        let step1 : ComponentType × List ComponentType :=
          if supported.length ≠ 0 then
            (setNonHiddenTags image supported, acc.1 ++ [setNonHiddenTags image supported])
          else (image, acc.1)
        let step2 : ComponentType × List ComponentType :=
          if unsupported.length ≠ 0 then
            (setNonHiddenTags step1.1 unsupported,
              acc.2 ++ [setNonHiddenTags step1.1 unsupported])
          else (step1.1, acc.2)
        (step1.2, step2.2))
      acc
    = (acc.1 ++ items.filterMap (supportedRow L), acc.2 ++ items.filterMap (unsupportedRow L)) := by
  induction items generalizing acc with
  | nil => simp
  | cons image rest ih =>
    rw [List.foldl_cons, ih]
    by_cases h1 : (L image).1.length = 0 <;> by_cases h2 : (L image).2.length = 0 <;>
      simp [supportedRow, unsupportedRow, List.filterMap_cons, h1, h2, setNonHiddenTags]

theorem partitionImages_eq (L : TagLookup) (items : List ComponentType) :
    partitionImages L items
      = (items.filterMap (supportedRow L), items.filterMap (unsupportedRow L)) := by
  unfold partitionImages
  rw [partitionImages_foldl]
  simp

theorem partitionDevfiles_foldl (items : List DevfileComponentType)
    (acc : List DevfileComponentType × List DevfileComponentType) :
    items.foldl
      (fun acc devfileComponent =>
        if devfileComponent.Support then (acc.1 ++ [devfileComponent], acc.2)
        else (acc.1, acc.2 ++ [devfileComponent]))
      acc
    = (acc.1 ++ items.filter (fun d => d.Support),
       acc.2 ++ items.filter (fun d => !d.Support)) := by
  induction items generalizing acc with
  | nil => simp
  | cons d rest ih =>
    rw [List.foldl_cons, ih]
    cases h : d.Support <;> simp [List.filter_cons, h]

theorem partitionDevfiles_eq (items : List DevfileComponentType) :
    partitionDevfiles items
      = (items.filter (fun d => d.Support), items.filter (fun d => !d.Support)) := by
  unfold partitionDevfiles
  rw [partitionDevfiles_foldl]
  simp

theorem foldl_Fprintln {α : Type} (g : α → List String) (l : List α) (w : List String) :
    l.foldl (fun w a => Fprintln w (g a)) w = w ++ l.map (fun a => Sprintln (g a)) := by
  induction l generalizing w with
  | nil => simp
  | cons a rest ih => rw [List.foldl_cons, ih]; simp [Fprintln]

theorem printCatalogList_eq (o : ListComponentsOptions) (w : List String)
    (catalogList : List ComponentType) (supported : String) :
    printCatalogList o w catalogList supported
      = w ++ catalogList.map (catalogRow o catalogList supported) := by
  unfold printCatalogList
  rw [foldl_Fprintln]
  rfl

theorem printDevfileCatalogList_eq (w : List String)
    (catalogDevfileList : List DevfileComponentType) (supported : String) :
    printDevfileCatalogList w catalogDevfileList supported
      = w ++ catalogDevfileList.map (devfileRow supported) := by
  unfold printDevfileCatalogList
  rw [foldl_Fprintln]
  rfl

theorem foldl_overwrite {α β : Type} (P : α → Prop) [DecidablePred P] (a : β)
    (l : List α) (init : β) :
    l.foldl (fun acc x => if P x then a else acc) init
      = if ∃ x ∈ l, P x then a else init := by
  induction l generalizing init with
  | nil => simp
  | cons x rest ih =>
    rw [List.foldl_cons, ih]
    by_cases hx : P x
    · simp [hx]
    · simp [hx]

/-! ## Validate -/

/-- C1: `Validate` returns the error "no deployable components found" exactly
when both the image listing and the devfile listing have zero items, and it
returns no error exactly when at least one of the two listings has one or more
items. -/
theorem Validate_error_iff_both_empty (o : ListComponentsOptions) :
    (Validate o = some "no deployable components found"
        ↔ o.catalogList.Items.length = 0 ∧ o.catalogDevfileList.Items.length = 0)
    ∧ ((Validate o).isSome
        ↔ o.catalogList.Items.length = 0 ∧ o.catalogDevfileList.Items.length = 0)
    ∧ (Validate o = none
        ↔ 1 ≤ o.catalogList.Items.length ∨ 1 ≤ o.catalogDevfileList.Items.length) := by
  unfold Validate
  by_cases h : o.catalogList.Items.length = 0 ∧ o.catalogDevfileList.Items.length = 0
  · simp [h]
  · simp only [h, if_false]
    refine ⟨by simp, by simp, ?_⟩
    simp only [true_iff]
    omega

/-! ## Table-mode image partition -/

/-- C2: in table-mode `Run`, the supported partition is the input entries, in
input order, whose supported tag subset is non-empty, each copied with
`NonHiddenTags` set to that subset and every other field unchanged; the
unsupported partition is the input entries, in input order, whose unsupported
subset is non-empty, each copied with `NonHiddenTags` set to that subset. An
entry with tags "8", "10", "unsupported-tag" of which "8" and "10" are reported
supported is in the supported partition with tags "8", "10" and in the
unsupported partition with tag "unsupported-tag". -/
theorem Run_table_image_partition (SliceSupportedTags : TagLookup)
    (items : List ComponentType) :
    (partitionImages SliceSupportedTags items).1
        = items.filterMap (fun image =>
            if (SliceSupportedTags image).1.length ≠ 0 then
              some { ObjectMeta := image.ObjectMeta
                     Spec := { AllTags := image.Spec.AllTags
                               NonHiddenTags := (SliceSupportedTags image).1
                               SupportedTags := image.Spec.SupportedTags } }
            else none)
    ∧ (partitionImages SliceSupportedTags items).2
        = items.filterMap (fun image =>
            if (SliceSupportedTags image).2.length ≠ 0 then
              some { ObjectMeta := image.ObjectMeta
                     Spec := { AllTags := image.Spec.AllTags
                               NonHiddenTags := (SliceSupportedTags image).2
                               SupportedTags := image.Spec.SupportedTags } }
            else none)
    ∧ sampleLookup (mkImage "nodejs" "openshift" ["8", "10", "unsupported-tag"])
        = (["8", "10"], ["unsupported-tag"])
    ∧ partitionImages sampleLookup [mkImage "nodejs" "openshift" ["8", "10", "unsupported-tag"]]
        = ([{ ObjectMeta := { Name := "nodejs", Namespace := "openshift" }
              Spec := { AllTags := ["8", "10", "unsupported-tag"]
                        NonHiddenTags := ["8", "10"]
                        SupportedTags := [] } }],
           [{ ObjectMeta := { Name := "nodejs", Namespace := "openshift" }
              Spec := { AllTags := ["8", "10", "unsupported-tag"]
                        NonHiddenTags := ["unsupported-tag"]
                        SupportedTags := [] } }]) := by
  refine ⟨?_, ?_, by decide, by decide⟩
  · rw [partitionImages_eq]; rfl
  · rw [partitionImages_eq]; rfl

/-! ## Name disambiguation -/

theorem append_marker_ne (name : String) : name ++ " (*)" ≠ name := by
  intro h
  have h2 := congrArg String.length h
  simp [String.length_append] at h2
  revert h2
  decide

theorem componentName_eq (o : ListComponentsOptions) (catalogList : List ComponentType)
    (component : ComponentType) :
    componentName o catalogList component
      = if component.ObjectMeta.Namespace = o.Context.Project
            ∧ ∃ comp ∈ catalogList, comp.ObjectMeta.Name = component.ObjectMeta.Name
                ∧ component.ObjectMeta.Namespace ≠ comp.ObjectMeta.Namespace then
          component.ObjectMeta.Name ++ " (*)"
        else component.ObjectMeta.Name := by
  unfold componentName
  by_cases hns : component.ObjectMeta.Namespace = o.Context.Project
  · rw [if_pos hns, foldl_overwrite
      (fun comp : ComponentType => comp.ObjectMeta.Name = component.ObjectMeta.Name
        ∧ component.ObjectMeta.Namespace ≠ comp.ObjectMeta.Namespace)]
    simp [hns]
  · simp [hns]

/-- C3: the label `printCatalogList` displays for a row is the name followed by
" (*)" exactly when the row's namespace is the active namespace and the same
section holds an entry of identical name and different namespace; in every
other case it is the name itself. Each row of the section is written with that
label in first position. For two entries named "nodejs" in namespaces
"openshift" (active) and "other-ns" the labels are "nodejs (*)" and "nodejs". -/
theorem printCatalogList_label (o : ListComponentsOptions)
    (catalogList : List ComponentType) (component : ComponentType) :
    (componentName o catalogList component = component.ObjectMeta.Name ++ " (*)"
        ↔ (component.ObjectMeta.Namespace = o.Context.Project
            ∧ ∃ comp ∈ catalogList, comp.ObjectMeta.Name = component.ObjectMeta.Name
                ∧ comp.ObjectMeta.Namespace ≠ component.ObjectMeta.Namespace))
    ∧ (componentName o catalogList component = component.ObjectMeta.Name
        ↔ ¬ (component.ObjectMeta.Namespace = o.Context.Project
            ∧ ∃ comp ∈ catalogList, comp.ObjectMeta.Name = component.ObjectMeta.Name
                ∧ comp.ObjectMeta.Namespace ≠ component.ObjectMeta.Namespace))
    ∧ (∀ (w : List String) (supported : String),
        printCatalogList o w catalogList supported
          = w ++ catalogList.map (fun row =>
              Sprintln [componentName o catalogList row, "\t", row.ObjectMeta.Namespace, "\t",
                String.intercalate "," row.Spec.NonHiddenTags, "\t", supported]))
    ∧ componentName (mkOptions false [] [])
          [mkImage "nodejs" "openshift" ["8"], mkImage "nodejs" "other-ns" ["8"]]
          (mkImage "nodejs" "openshift" ["8"]) = "nodejs (*)"
    ∧ componentName (mkOptions false [] [])
          [mkImage "nodejs" "openshift" ["8"], mkImage "nodejs" "other-ns" ["8"]]
          (mkImage "nodejs" "other-ns" ["8"]) = "nodejs"
    ∧ printCatalogList (mkOptions false [] []) []
          [mkImage "nodejs" "openshift" ["8"], mkImage "nodejs" "other-ns" ["8"]] "YES"
        = ["nodejs (*) \t openshift \t 8 \t YES\n", "nodejs \t other-ns \t 8 \t YES\n"] := by
  refine ⟨?_, ?_, ?_, by decide, by decide, by decide⟩
  · rw [componentName_eq]
    constructor
    · intro h
      by_contra hc
      rw [if_neg] at h
      · exact append_marker_ne _ h.symm
      · intro hh
        exact hc ⟨hh.1, hh.2.imp fun comp hcomp => ⟨hcomp.1, hcomp.2.1, fun e => hcomp.2.2 e.symm⟩⟩
    · intro h
      rw [if_pos]
      exact ⟨h.1, h.2.imp fun comp hcomp => ⟨hcomp.1, hcomp.2.1, fun e => hcomp.2.2 e.symm⟩⟩
  · rw [componentName_eq]
    constructor
    · intro h hc
      rw [if_pos] at h
      · exact append_marker_ne _ h
      · exact ⟨hc.1, hc.2.imp fun comp hcomp => ⟨hcomp.1, hcomp.2.1, fun e => hcomp.2.2 e.symm⟩⟩
    · intro h
      rw [if_neg]
      intro hh
      exact h ⟨hh.1, hh.2.imp fun comp hcomp => ⟨hcomp.1, hcomp.2.1, fun e => hcomp.2.2 e.symm⟩⟩
  · intro w supported
    rw [printCatalogList_eq]
    rfl

/-! ## Table-mode sections -/

theorem writeImageSection_eq (o : ListComponentsOptions) (w : List String)
    (sup unsup : List ComponentType) :
    writeImageSection o w sup unsup
      = w ++ (if sup.length ≠ 0 ∨ unsup.length ≠ 0 then
          ["Odo OpenShift Components:\n", "NAME \t PROJECT \t TAGS \t SUPPORTED\n"]
            ++ sup.map (catalogRow o sup "YES") ++ unsup.map (catalogRow o unsup "NO") ++ ["\n"]
        else []) := by
  have e1 : Sprintln ["Odo OpenShift Components:"] = "Odo OpenShift Components:\n" := by decide
  have e2 : Sprintln ["NAME", "\t", "PROJECT", "\t", "TAGS", "\t", "SUPPORTED"]
      = "NAME \t PROJECT \t TAGS \t SUPPORTED\n" := by decide
  have e3 : Sprintln [] = "\n" := by decide
  unfold writeImageSection
  by_cases h : sup.length ≠ 0 ∨ unsup.length ≠ 0
  · rw [if_pos h, if_pos h]
    simp only [Fprintln, printCatalogList_eq, e1, e2, e3]
    by_cases h1 : sup.length ≠ 0 <;> by_cases h2 : unsup.length ≠ 0
    · simp [h1, h2]
    · have : unsup = [] := by simpa using h2
      simp [h1, this]
    · have : sup = [] := by simpa using h1
      simp [h2, this]
    · exact absurd h (by simp [h1, h2])
  · rw [if_neg h, if_neg h]; simp

theorem writeDevfileSection_eq (o : ListComponentsOptions) (w : List String)
    (sup unsup : List DevfileComponentType) :
    writeDevfileSection o w sup unsup
      = w ++ (if sup.length ≠ 0 ∨ (o.listAllDevfileComponents = true ∧ unsup.length ≠ 0) then
          ["Odo Devfile Components:\n", "NAME \t DESCRIPTION \t REGISTRY \t SUPPORTED\n"]
            ++ sup.map (devfileRow "YES")
            ++ (if o.listAllDevfileComponents = true then unsup.map (devfileRow "NO") else [])
            ++ ["\n"]
        else []) := by
  have e1 : Sprintln ["Odo Devfile Components:"] = "Odo Devfile Components:\n" := by decide
  have e2 : Sprintln ["NAME", "\t", "DESCRIPTION", "\t", "REGISTRY", "\t", "SUPPORTED"]
      = "NAME \t DESCRIPTION \t REGISTRY \t SUPPORTED\n" := by decide
  have e3 : Sprintln [] = "\n" := by decide
  unfold writeDevfileSection
  by_cases h : sup.length ≠ 0 ∨ (o.listAllDevfileComponents = true ∧ unsup.length ≠ 0)
  · rw [if_pos h, if_pos h]
    simp only [Fprintln, printDevfileCatalogList_eq, e1, e2, e3]
    by_cases h1 : sup.length ≠ 0 <;> by_cases ha : o.listAllDevfileComponents = true <;>
      by_cases h2 : unsup.length ≠ 0
    · simp [h1, ha, h2]
    · have : unsup = [] := by simpa using h2
      simp [h1, ha, this]
    · simp [h1, ha, h2]
    · simp [h1, ha, h2]
    · have : sup = [] := by simpa using h1
      simp [ha, h2, this]
    · exact absurd h (by simp [h1, h2])
    · exact absurd h (by simp [h1, ha])
    · exact absurd h (by simp [h1, ha])
  · rw [if_neg h, if_neg h]; simp

theorem Run_table_eq (SliceSupportedTags : TagLookup) (o : ListComponentsOptions) :
    Run false SliceSupportedTags o
      = (o, Output.table (imageSection SliceSupportedTags o ++ devfileSection o)) := by
  simp only [Run, imageSection, devfileSection, Bool.false_eq_true, if_false]
  rw [writeDevfileSection_eq o (writeImageSection _ _ _ _), writeDevfileSection_eq o []]
  simp

theorem filter_length_ne_zero {α : Type} (p : α → Bool) (l : List α) :
    (l.filter p).length ≠ 0 ↔ ∃ x ∈ l, p x = true := by
  rw [Ne, List.length_eq_zero, List.filter_eq_nil_iff]
  push_neg
  rfl

/-- C4: table-mode `Run` writes the image section followed by the devfile
section; the devfile section (title, header, rows, closing blank line) is
written exactly when there is a supported devfile entry, or the `--all` flag is
set and there is an unsupported devfile entry, and otherwise nothing is written
for it. For a non-empty devfile listing holding only unsupported entries, no
devfile section is written with `--all` unset, and with `--all` set the section
has one row per entry, in order, each with indicator "NO". -/
theorem Run_table_devfile_section (SliceSupportedTags : TagLookup)
    (o : ListComponentsOptions) :
    (Run false SliceSupportedTags o).2
        = Output.table (imageSection SliceSupportedTags o ++ devfileSection o)
    ∧ devfileSection o
        = (if (∃ d ∈ o.catalogDevfileList.Items, d.Support = true)
              ∨ (o.listAllDevfileComponents = true
                  ∧ ∃ d ∈ o.catalogDevfileList.Items, d.Support = false) then
            ["Odo Devfile Components:\n", "NAME \t DESCRIPTION \t REGISTRY \t SUPPORTED\n"]
              ++ (o.catalogDevfileList.Items.filter (fun d => d.Support)).map (fun d =>
                    Sprintln [d.Name, "\t", d.Description, "\t", d.Registry.Name, "\t", "YES"])
              ++ (if o.listAllDevfileComponents = true then
                    (o.catalogDevfileList.Items.filter (fun d => !d.Support)).map (fun d =>
                      Sprintln [d.Name, "\t", d.Description, "\t", d.Registry.Name, "\t", "NO"])
                  else [])
              ++ ["\n"]
          else [])
    ∧ (devfileSection o ≠ []
        ↔ (∃ d ∈ o.catalogDevfileList.Items, d.Support = true)
            ∨ (o.listAllDevfileComponents = true
                ∧ ∃ d ∈ o.catalogDevfileList.Items, d.Support = false))
    ∧ (o.catalogDevfileList.Items ≠ [] → (∀ d ∈ o.catalogDevfileList.Items, d.Support = false) →
        (o.listAllDevfileComponents = false → devfileSection o = [])
        ∧ (o.listAllDevfileComponents = true →
            devfileSection o
              = ["Odo Devfile Components:\n", "NAME \t DESCRIPTION \t REGISTRY \t SUPPORTED\n"]
                ++ o.catalogDevfileList.Items.map (fun d =>
                    Sprintln [d.Name, "\t", d.Description, "\t", d.Registry.Name, "\t", "NO"])
                ++ ["\n"])) := by
  have hsec : devfileSection o
        = (if (∃ d ∈ o.catalogDevfileList.Items, d.Support = true)
              ∨ (o.listAllDevfileComponents = true
                  ∧ ∃ d ∈ o.catalogDevfileList.Items, d.Support = false) then
            ["Odo Devfile Components:\n", "NAME \t DESCRIPTION \t REGISTRY \t SUPPORTED\n"]
              ++ (o.catalogDevfileList.Items.filter (fun d => d.Support)).map (fun d =>
                    Sprintln [d.Name, "\t", d.Description, "\t", d.Registry.Name, "\t", "YES"])
              ++ (if o.listAllDevfileComponents = true then
                    (o.catalogDevfileList.Items.filter (fun d => !d.Support)).map (fun d =>
                      Sprintln [d.Name, "\t", d.Description, "\t", d.Registry.Name, "\t", "NO"])
                  else [])
              ++ ["\n"]
          else []) := by
    unfold devfileSection
    rw [writeDevfileSection_eq, partitionDevfiles_eq]
    simp only [filter_length_ne_zero, List.nil_append, Bool.not_eq_true', Bool.not_eq_true,
      Bool.not_eq_eq_eq_not, Bool.not_true]
    rfl
  refine ⟨by rw [Run_table_eq], hsec, ?_, ?_⟩
  · by_cases hc : (∃ d ∈ o.catalogDevfileList.Items, d.Support = true)
        ∨ (o.listAllDevfileComponents = true
            ∧ ∃ d ∈ o.catalogDevfileList.Items, d.Support = false)
    · rw [hsec, if_pos hc]
      simp [hc]
    · rw [hsec, if_neg hc]
      simp [hc]
  · intro hne hall
    have hno : ¬ ∃ d ∈ o.catalogDevfileList.Items, d.Support = true := by
      rintro ⟨d, hd, hs⟩
      rw [hall d hd] at hs
      exact Bool.noConfusion hs
    have hex : ∃ d ∈ o.catalogDevfileList.Items, d.Support = false := by
      obtain ⟨d, hd⟩ := List.exists_mem_of_ne_nil _ hne
      exact ⟨d, hd, hall d hd⟩
    have hf1 : o.catalogDevfileList.Items.filter (fun d => d.Support) = [] := by
      rw [List.filter_eq_nil_iff]
      intro d hd
      simp [hall d hd]
    have hf2 : o.catalogDevfileList.Items.filter (fun d => !d.Support)
        = o.catalogDevfileList.Items := by
      rw [List.filter_eq_self]
      intro d hd
      simp [hall d hd]
    constructor
    · intro ha
      rw [hsec, if_neg]
      simp [hno, ha]
    · intro ha
      rw [hsec, if_pos (Or.inr ⟨ha, hex⟩), hf1, hf2, if_pos ha]
      simp

/-- Witness for C4 at a listing of two unsupported devfile entries with
`--all` set. -/
theorem Run_table_devfile_section_witness :
    devfileSection (mkOptions true [] [mkDevfile "java" false, mkDevfile "go" false])
      = ["Odo Devfile Components:\n", "NAME \t DESCRIPTION \t REGISTRY \t SUPPORTED\n",
         "java \t sample \t DefaultDevfileRegistry \t NO\n",
         "go \t sample \t DefaultDevfileRegistry \t NO\n", "\n"] :=
  ((Run_table_devfile_section sampleLookup
      (mkOptions true [] [mkDevfile "java" false, mkDevfile "go" false])).2.2.2
    (by decide) (by decide)).2 (by decide)

/-! ## Structured mode -/

theorem foldl_range_set {α : Type} (f : α → α) (items : List α) (n : Nat) :
    ∀ i, ((List.range n).foldl
      (fun items i =>
        match items[i]? with
        | some image => items.set i (f image)
        | none => items)
      items)[i]? = if i < n then items[i]?.map f else items[i]? := by
  induction n with
  | zero => intro i; simp
  | succ n ih =>
    intro i
    rw [List.range_succ, List.foldl_append, List.foldl_cons, List.foldl_nil]
    generalize hcur : (List.range n).foldl _ items = cur at ih ⊢
    have hn : cur[n]? = items[n]? := by simpa using ih n
    cases hi : items[n]? with
    | none =>
      rw [hi] at hn
      simp only [hn]
      rw [ih i]
      by_cases h1 : i < n
      · simp [h1, Nat.lt_succ_of_lt h1]
      · by_cases h2 : i = n
        · subst h2; simp [hi]
        · have : ¬ i < n + 1 := by omega
          simp [h1, this]
    | some image =>
      rw [hi] at hn
      simp only [hn]
      rw [List.getElem?_set]
      have hlt : n < cur.length := by
        by_contra hc
        have := List.getElem?_eq_none (Nat.le_of_not_lt hc)
        rw [hn] at this
        exact Option.noConfusion this
      by_cases h2 : n = i
      · subst h2; simp [hlt, hi]
      · rw [if_neg h2, ih i]
        by_cases h1 : i < n
        · simp [h1, Nat.lt_succ_of_lt h1]
        · have : ¬ i < n + 1 := by omega
          simp [h1, this]

theorem foldl_range_set_eq_map {α : Type} (f : α → α) (items : List α) :
    (List.range items.length).foldl
      (fun items i =>
        match items[i]? with
        | some image => items.set i (f image)
        | none => items)
      items = items.map f := by
  apply List.ext_getElem?
  intro i
  rw [foldl_range_set]
  by_cases h : i < items.length
  · simp [h]
  · have : items[i]? = none := List.getElem?_eq_none (Nat.le_of_not_lt h)
    simp [h, this]

theorem annotateSupportedTags_eq (L : TagLookup) (items : List ComponentType) :
    annotateSupportedTags L items
      = items.map (fun image =>
          { ObjectMeta := image.ObjectMeta
            Spec := { AllTags := image.Spec.AllTags
                      NonHiddenTags := image.Spec.NonHiddenTags
                      SupportedTags := (L image).1 } }) := by
  have h := foldl_range_set_eq_map (fun image => setSupportedTags image (L image).1) items
  have h2 : annotateSupportedTags L items
      = items.map (fun image => setSupportedTags image (L image).1) := by
    unfold annotateSupportedTags
    rw [← h]
    congr 1
    funext cur i
    cases cur[i]? <;> rfl
  rw [h2]
  rfl

theorem Run_json_eq (L : TagLookup) (o : ListComponentsOptions) :
    Run true L o
      = ({ o with catalogList := { Items := annotateSupportedTags L o.catalogList.Items } },
         Output.json
          { TypeMeta := { Kind := "List", APIVersion := "odo.dev/v1alpha1" }
            ObjectMeta := { Name := "", Namespace := "" }
            S2iItems := annotateSupportedTags L o.catalogList.Items
            DevfileItems := o.catalogDevfileList.Items }) := by
  simp [Run]

/-- C5 (as stated, refuted): for a state that `Validate` accepts, with one image
entry and an empty devfile listing, the document emitted by structured-mode
`Run` has no `devfileItems` member, so it does not contain both members. -/
theorem Run_json_omits_empty_listing :
    Validate (mkOptions false [mkImage "nodejs" "openshift" ["8"]] []) = none
    ∧ ¬ ("s2iItems" ∈ emittedKeys
            (Run true sampleLookup (mkOptions false [mkImage "nodejs" "openshift" ["8"]] [])).2
          ∧ "devfileItems" ∈ emittedKeys
            (Run true sampleLookup (mkOptions false [mkImage "nodejs" "openshift" ["8"]] [])).2) := by
  decide

/-- C5 (amended): the document emitted by structured-mode `Run` always has the
members `kind`, `apiVersion` and `metadata`; it has the member `s2iItems`
exactly when the image listing is non-empty and the member `devfileItems`
exactly when the devfile listing is non-empty. A present member carries the
whole listing; the member of an empty listing is omitted. -/
theorem Run_json_members (SliceSupportedTags : TagLookup) (o : ListComponentsOptions) :
    emittedMembers (Run true SliceSupportedTags o).2
        = [("kind", JSONMember.string "List"),
           ("apiVersion", JSONMember.string "odo.dev/v1alpha1"),
           ("metadata", JSONMember.metadata { Name := "", Namespace := "" })]
          ++ (if o.catalogList.Items = [] then []
              else [("s2iItems", JSONMember.s2iItems
                      (o.catalogList.Items.map (fun image =>
                        { ObjectMeta := image.ObjectMeta
                          Spec := { AllTags := image.Spec.AllTags
                                    NonHiddenTags := image.Spec.NonHiddenTags
                                    SupportedTags := (SliceSupportedTags image).1 } })))])
          ++ (if o.catalogDevfileList.Items = [] then []
              else [("devfileItems", JSONMember.devfileItems o.catalogDevfileList.Items)])
    ∧ ("s2iItems" ∈ emittedKeys (Run true SliceSupportedTags o).2 ↔ o.catalogList.Items ≠ [])
    ∧ ("devfileItems" ∈ emittedKeys (Run true SliceSupportedTags o).2
        ↔ o.catalogDevfileList.Items ≠ []) := by
  have hm : emittedMembers (Run true SliceSupportedTags o).2
        = [("kind", JSONMember.string "List"),
           ("apiVersion", JSONMember.string "odo.dev/v1alpha1"),
           ("metadata", JSONMember.metadata { Name := "", Namespace := "" })]
          ++ (if o.catalogList.Items = [] then []
              else [("s2iItems", JSONMember.s2iItems
                      (o.catalogList.Items.map (fun image =>
                        { ObjectMeta := image.ObjectMeta
                          Spec := { AllTags := image.Spec.AllTags
                                    NonHiddenTags := image.Spec.NonHiddenTags
                                    SupportedTags := (SliceSupportedTags image).1 } })))])
          ++ (if o.catalogDevfileList.Items = [] then []
              else [("devfileItems", JSONMember.devfileItems o.catalogDevfileList.Items)]) := by
    rw [Run_json_eq, annotateSupportedTags_eq]
    have k1 : ¬ ("List" = "") := by decide
    have k2 : ¬ ("odo.dev/v1alpha1" = "") := by decide
    simp only [emittedMembers, jsonMembers, k1, k2, if_false, List.length_map,
      List.length_eq_zero]
    simp
  refine ⟨hm, ?_, ?_⟩
  · unfold emittedKeys
    rw [hm]
    by_cases h1 : o.catalogList.Items = [] <;> by_cases h2 : o.catalogDevfileList.Items = [] <;>
      simp [h1, h2]
  · unfold emittedKeys
    rw [hm]
    by_cases h1 : o.catalogList.Items = [] <;> by_cases h2 : o.catalogDevfileList.Items = [] <;>
      simp [h1, h2]

/-- C6: the document emitted by structured-mode `Run` has kind "List" and
version "odo.dev/v1alpha1"; its `S2iItems` is the image listing, same length
and order, each entry unchanged except that `SupportedTags` is the supported
subset reported by the lookup (no entry is split or removed); its
`DevfileItems` is the whole devfile listing; and the document does not depend
on the `--all` flag. -/
theorem Run_json_document (SliceSupportedTags : TagLookup) (o : ListComponentsOptions) :
    (Run true SliceSupportedTags o).2
        = Output.json
            { TypeMeta := { Kind := "List", APIVersion := "odo.dev/v1alpha1" }
              ObjectMeta := { Name := "", Namespace := "" }
              S2iItems := o.catalogList.Items.map (fun image =>
                { ObjectMeta := image.ObjectMeta
                  Spec := { AllTags := image.Spec.AllTags
                            NonHiddenTags := image.Spec.NonHiddenTags
                            SupportedTags := (SliceSupportedTags image).1 } })
              DevfileItems := o.catalogDevfileList.Items }
    ∧ (o.catalogList.Items.map (fun image : ComponentType =>
          ({ ObjectMeta := image.ObjectMeta
             Spec := { AllTags := image.Spec.AllTags
                       NonHiddenTags := image.Spec.NonHiddenTags
                       SupportedTags := (SliceSupportedTags image).1 } } : ComponentType))).length
        = o.catalogList.Items.length
    ∧ (∀ all : Bool,
        (Run true SliceSupportedTags { o with listAllDevfileComponents := all }).2
          = (Run true SliceSupportedTags o).2)
    ∧ (Run true sampleLookup
          (mkOptions false [mkImage "nodejs" "openshift" ["8", "latest"],
                            mkImage "legacy" "openshift" ["old"]]
            [mkDevfile "java" true, mkDevfile "go" false])).2
        = Output.json
            { TypeMeta := { Kind := "List", APIVersion := "odo.dev/v1alpha1" }
              ObjectMeta := { Name := "", Namespace := "" }
              S2iItems :=
                [{ ObjectMeta := { Name := "nodejs", Namespace := "openshift" }
                   Spec := { AllTags := ["8", "latest"], NonHiddenTags := ["8", "latest"],
                             SupportedTags := ["8"] } },
                 { ObjectMeta := { Name := "legacy", Namespace := "openshift" }
                   Spec := { AllTags := ["old"], NonHiddenTags := ["old"],
                             SupportedTags := [] } }]
              DevfileItems := [mkDevfile "java" true, mkDevfile "go" false] } := by
  refine ⟨?_, by simp, ?_, by decide⟩
  · rw [Run_json_eq, annotateSupportedTags_eq]
  · intro all
    rw [Run_json_eq, Run_json_eq]

/-! ## Complete -/

theorem registerTasks_eq (env : Env) (o : ListComponentsOptions) :
    registerTasks env o
      = (if env.IsPushTargetDocker = false then { o with Context := env.NewContext } else o,
         (if env.IsPushTargetDocker = false then [imageTask env] else [])
          ++ (if env.IsExperimentalModeEnabled = true then [devfileTask env] else [])) := by
  unfold registerTasks
  cases env.IsPushTargetDocker <;> cases env.IsExperimentalModeEnabled <;> simp

theorem Complete_sequential_result (env : Env) (o : ListComponentsOptions) :
    (Complete [] env o).2
      = ((if env.IsPushTargetDocker = false ∧ env.IsExperimentalModeEnabled = false then
            (env.ListComponents env.NewContext).2.toList else [])
          ++ (if env.IsExperimentalModeEnabled = true then env.ListDevfileComponents.2.toList
              else [])).head? := by
  unfold Complete runTasks
  rw [registerTasks_eq]
  by_cases hr : env.ListDevfileComponents.1.DevfileRegistries = none <;>
    cases hd : env.IsPushTargetDocker <;> cases he : env.IsExperimentalModeEnabled <;>
    cases hi : (env.ListComponents env.NewContext).2 <;>
    cases hv : env.ListDevfileComponents.2 <;>
    simp [finishTasks, applyStep, imageTask, devfileTask, hi, hv, he, hr]

theorem runTasks_single (schedule : List FetchKind) (task : ConcurrentTask)
    (acc : CompleteState × List Error) :
    finishTasks (schedule.foldl (fun st kind => stepTask kind st.1 st.2) ([task], acc)).1
        (schedule.foldl (fun st kind => stepTask kind st.1 st.2) ([task], acc)).2
      = finishTasks [task] acc := by
  induction schedule generalizing task acc with
  | nil => rfl
  | cons kind rest ih =>
    rw [List.foldl_cons]
    by_cases hk : task.kind = kind
    · cases hs : task.steps with
      | nil =>
        have e : stepTask kind [task] acc = ([task], acc) := by
          simp [stepTask, hk, hs]
        rw [e]
        exact ih task acc
      | cons step more =>
        have e : stepTask kind [task] acc
            = ([{ task with steps := more }], applyStep step acc) := by
          simp [stepTask, hk, hs]
        rw [e, ih]
        simp [finishTasks, hs]
    · have e : stepTask kind [task] acc = ([task], acc) := by
        simp [stepTask, hk]
      rw [e]
      exact ih task acc

/-- C7: `Complete` at the schedules that decide the claim. Both closures assign
the named result `err` and read it in a later statement. With experimental
mode on, a failing image fetch and a succeeding devfile fetch, the schedule
devfile assignment, image assignment, devfile check makes the devfile closure
send the image failure, so `Complete` returns "not logged in"; with a
succeeding image fetch and a failing devfile fetch the same schedule makes the
devfile closure see no failure, so `Complete` returns no error. When the
closures run one after another the result is the one claimed: an error exactly
when the image fetch is registered, fails and experimental mode is off, or the
devfile fetch is registered and fails. With experimental mode off only the
image closure is registered and every schedule returns its failure. -/
theorem Complete_shared_err_race (env : Env) (o : ListComponentsOptions) :
    (Complete [FetchKind.devfile, FetchKind.image, FetchKind.devfile, FetchKind.devfile,
          FetchKind.image] (sampleEnv false true) (mkOptions false [] [])).2
        = some "not logged in"
    ∧ (Complete [] (sampleEnv false true) (mkOptions false [] [])).2 = none
    ∧ (Complete [FetchKind.devfile, FetchKind.image, FetchKind.devfile, FetchKind.devfile,
          FetchKind.image] devfileDownEnv (mkOptions false [] [])).2
        = none
    ∧ (Complete [] devfileDownEnv (mkOptions false [] [])).2 = some "registry unreachable"
    ∧ ((Complete [] env o).2.isSome
        ↔ (env.IsPushTargetDocker = false ∧ (env.ListComponents env.NewContext).2.isSome
              ∧ env.IsExperimentalModeEnabled = false)
          ∨ (env.IsExperimentalModeEnabled = true ∧ env.ListDevfileComponents.2.isSome))
    ∧ (∀ schedule : List FetchKind,
        (Complete schedule { env with IsExperimentalModeEnabled := false } o).2
          = if env.IsPushTargetDocker = true then none
            else (env.ListComponents env.NewContext).2) := by
  refine ⟨by decide, by decide, by decide, by decide, ?_, ?_⟩
  · rw [Complete_sequential_result]
    cases hd : env.IsPushTargetDocker <;> cases he : env.IsExperimentalModeEnabled <;>
      cases hi : (env.ListComponents env.NewContext).2 <;>
      cases hv : env.ListDevfileComponents.2 <;> simp
  · intro schedule
    unfold Complete runTasks
    rw [registerTasks_eq]
    cases hd : env.IsPushTargetDocker
    · simp only [Bool.false_eq_true, if_false, if_true, List.append_nil]
      rw [runTasks_single]
      cases hi : (env.ListComponents env.NewContext).2 <;>
        simp [finishTasks, applyStep, imageTask, hi]
    · have e : ∀ (sched : List FetchKind) (acc : CompleteState × List Error),
          sched.foldl (fun st kind => stepTask kind st.1 st.2) ([], acc) = ([], acc) := by
        intro sched
        induction sched with
        | nil => intro acc; rfl
        | cons k rest ih => intro acc; rw [List.foldl_cons]; exact ih acc
      simp [e, finishTasks]

/-- C8: the tasks `Complete` registers are the image fetch exactly when the
docker push target is not active, followed by the devfile fetch exactly when
experimental mode is enabled. With experimental
mode off no devfile task is registered, with the docker push target active no
image task is registered, and no task at all is registered exactly when the
docker push target is active and experimental mode is off. -/
theorem Complete_registered_tasks (env : Env) (o : ListComponentsOptions) :
    (registerTasks env o).2
        = (if env.IsPushTargetDocker = false then [imageTask env] else [])
          ++ (if env.IsExperimentalModeEnabled = true then [devfileTask env] else [])
    ∧ (registerTasks env o).2.map (fun task => task.kind)
        = (if env.IsPushTargetDocker = false then [FetchKind.image] else [])
          ++ (if env.IsExperimentalModeEnabled = true then [FetchKind.devfile] else [])
    ∧ (FetchKind.image ∈ (registerTasks env o).2.map (fun task => task.kind)
        ↔ env.IsPushTargetDocker = false)
    ∧ (FetchKind.devfile ∈ (registerTasks env o).2.map (fun task => task.kind)
        ↔ env.IsExperimentalModeEnabled = true)
    ∧ ((registerTasks env o).2.map (fun task => task.kind) = [FetchKind.image]
        ↔ env.IsPushTargetDocker = false ∧ env.IsExperimentalModeEnabled = false)
    ∧ ((registerTasks env o).2 = []
        ↔ env.IsPushTargetDocker = true ∧ env.IsExperimentalModeEnabled = false) := by
  rw [registerTasks_eq]
  refine ⟨rfl, ?_, ?_, ?_, ?_, ?_⟩
  · cases env.IsPushTargetDocker <;> cases env.IsExperimentalModeEnabled <;>
      simp [imageTask, devfileTask]
  · cases env.IsPushTargetDocker <;> cases env.IsExperimentalModeEnabled <;>
      simp [imageTask, devfileTask]
  · cases env.IsPushTargetDocker <;> cases env.IsExperimentalModeEnabled <;>
      simp [imageTask, devfileTask]
  · cases env.IsPushTargetDocker <;> cases env.IsExperimentalModeEnabled <;>
      simp [imageTask, devfileTask]
  · cases env.IsPushTargetDocker <;> cases env.IsExperimentalModeEnabled <;> simp

/-! ## Frame of Run on the image listing -/

theorem map_eq_self_iff {α : Type} (f : α → α) (l : List α) :
    l.map f = l ↔ ∀ x ∈ l, f x = x := by
  induction l with
  | nil => simp
  | cons a rest ih => simp [ih]

/-- C9 (as stated, refuted): in structured mode, for one entry whose
`SupportedTags` is empty and whose tag "8" the lookup reports as supported, the
image listing held in the options after `Run` differs from the listing before
`Run`. -/
theorem Run_json_changes_listing :
    (Run true sampleLookup (mkOptions false [mkImage "nodejs" "openshift" ["8"]] [])).1.catalogList.Items
      ≠ (mkOptions false [mkImage "nodejs" "openshift" ["8"]] []).catalogList.Items := by
  decide

/-- C9 (amended): table-mode `Run` leaves the options, and so the image
listing, exactly as they were. Structured-mode `Run` keeps the number and order
of the entries and the name, namespace, `AllTags` and `NonHiddenTags` of each,
and overwrites `SupportedTags` of each entry with the supported subset reported
by the lookup; the listing is unchanged exactly when every entry already
carried that subset. -/
theorem Run_image_listing_frame (SliceSupportedTags : TagLookup) (o : ListComponentsOptions) :
    (Run false SliceSupportedTags o).1 = o
    ∧ (Run true SliceSupportedTags o).1.catalogList.Items
        = o.catalogList.Items.map (fun image =>
            { ObjectMeta := image.ObjectMeta
              Spec := { AllTags := image.Spec.AllTags
                        NonHiddenTags := image.Spec.NonHiddenTags
                        SupportedTags := (SliceSupportedTags image).1 } })
    ∧ ((Run true SliceSupportedTags o).1.catalogList.Items = o.catalogList.Items
        ↔ ∀ image ∈ o.catalogList.Items, (SliceSupportedTags image).1 = image.Spec.SupportedTags)
    ∧ (Run true SliceSupportedTags o).1.listAllDevfileComponents = o.listAllDevfileComponents
    ∧ (Run true SliceSupportedTags o).1.catalogDevfileList = o.catalogDevfileList
    ∧ (Run true SliceSupportedTags o).1.Context = o.Context := by
  refine ⟨by rw [Run_table_eq], ?_, ?_, ?_, ?_, ?_⟩
  · rw [Run_json_eq, annotateSupportedTags_eq]
  · rw [Run_json_eq, annotateSupportedTags_eq]
    simp only
    rw [map_eq_self_iff]
    constructor
    · intro h image himage
      exact congrArg (fun c : ComponentType => c.Spec.SupportedTags) (h image himage)
    · intro h image himage
      rw [h image himage]
  · rw [Run_json_eq]
  · rw [Run_json_eq]
  · rw [Run_json_eq]

/-! ## Entries without tags -/

/-- C10: an image entry for which the tag classifier returns an empty supported
subset and an empty unsupported subset contributes no row to either partition
of table-mode `Run`: wherever it stands in the listing, both partitions are
those of the listing without it, and alone it yields two empty partitions. -/
theorem partitionImages_skips_untagged (SliceSupportedTags : TagLookup)
    (image : ComponentType) (before after : List ComponentType)
    (h : SliceSupportedTags image = ([], [])) :
    partitionImages SliceSupportedTags (before ++ image :: after)
        = partitionImages SliceSupportedTags (before ++ after)
    ∧ partitionImages SliceSupportedTags [image] = ([], []) := by
  simp [partitionImages_eq, List.filterMap_append, List.filterMap_cons, supportedRow,
    unsupportedRow, h]

/-- Witness for C10: an entry without tags between two tagged entries. -/
theorem partitionImages_skips_untagged_witness :
    sampleLookup (mkImage "empty" "openshift" []) = ([], [])
    ∧ partitionImages sampleLookup
          ([mkImage "nodejs" "openshift" ["8"]] ++ mkImage "empty" "openshift" []
            :: [mkImage "ruby" "openshift" ["old"]])
        = partitionImages sampleLookup
          ([mkImage "nodejs" "openshift" ["8"]] ++ [mkImage "ruby" "openshift" ["old"]]) :=
  ⟨by decide,
   (partitionImages_skips_untagged sampleLookup (mkImage "empty" "openshift" [])
      [mkImage "nodejs" "openshift" ["8"]] [mkImage "ruby" "openshift" ["old"]]
      (by decide)).1⟩

/-! ## Rows and columns -/

theorem Sprintln_row (a b c d : String) :
    Sprintln [a, "\t", b, "\t", c, "\t", d]
      = a ++ " \t " ++ b ++ " \t " ++ c ++ " \t " ++ d ++ "\n" := by
  apply String.ext
  simp [Sprintln, String.intercalate, String.intercalate.go, String.data_append]

theorem plainField_cell (field : String) (h : plainField field = true) :
    ∀ c ∈ field.data, isCellEnd c = false := by
  intro c hc
  have := (List.all_eq_true.mp h) c hc
  simp only [Bool.and_eq_true, Bool.not_eq_true'] at this
  exact this.1

theorem plainField_line (field : String) (h : plainField field = true) :
    ∀ c ∈ field.data, isLineEnd c = false := by
  intro c hc
  have := (List.all_eq_true.mp h) c hc
  simp only [Bool.and_eq_true, Bool.not_eq_true'] at this
  exact this.2

theorem plainField_append (a b : String) (ha : plainField a = true)
    (hb : plainField b = true) : plainField (a ++ b) = true := by
  unfold plainField at ha hb ⊢
  rw [String.data_append, List.all_append, ha, hb]
  rfl

theorem componentName_plain (o : ListComponentsOptions) (catalogList : List ComponentType)
    (component : ComponentType) (h : plainField component.ObjectMeta.Name = true) :
    plainField (componentName o catalogList component) = true := by
  rw [componentName_eq]
  split
  · exact plainField_append _ _ h (by decide)
  · exact h

theorem forall_mem_padded {p : Char → Bool} (l : List Char) (hsp : p ' ' = false)
    (h : ∀ c ∈ l, p c = false) : ∀ x ∈ ' ' :: l ++ [' '], ¬ (p x = true) := by
  intro x hx
  simp only [List.cons_append, List.mem_cons, List.mem_append, List.not_mem_nil, or_false] at hx
  rcases hx with h1 | h1 | h1
  · subst h1; exact ne_true_of_eq_false hsp
  · exact ne_true_of_eq_false (h x h1)
  · subst h1; exact ne_true_of_eq_false hsp

theorem splitOnP_four {α : Type} (p : α → Bool) (l1 l2 l3 l4 : List α) (sep : α)
    (hsep : p sep = true) (h1 : ∀ x ∈ l1, ¬ (p x = true)) (h2 : ∀ x ∈ l2, ¬ (p x = true))
    (h3 : ∀ x ∈ l3, ¬ (p x = true)) (h4 : ∀ x ∈ l4, ¬ (p x = true)) :
    (l1 ++ sep :: (l2 ++ sep :: (l3 ++ sep :: l4))).splitOnP p = [l1, l2, l3, l4] := by
  rw [List.splitOnP_first p l1 h1 sep hsep, List.splitOnP_first p l2 h2 sep hsep,
    List.splitOnP_first p l3 h3 sep hsep, List.splitOnP_eq_single p l4 h4]

theorem tabwriterLines_row (a b c d : String) (ha : plainField a = true)
    (hb : plainField b = true) (hc : plainField c = true) (hd : plainField d = true) :
    tabwriterLines (Sprintln [a, "\t", b, "\t", c, "\t", d])
      = [[a ++ " ", " " ++ b ++ " ", " " ++ c ++ " ", " " ++ d]] := by
  have e : (Sprintln [a, "\t", b, "\t", c, "\t", d]).data
      = (([] ++ a.data ++ [' ']) ++ '\t' :: ((' ' :: b.data ++ [' ']) ++ '\t'
          :: ((' ' :: c.data ++ [' ']) ++ '\t' :: (' ' :: d.data ++ [])))) ++ '\n' :: [] := by
    simp [Sprintln, String.intercalate, String.intercalate.go, String.data_append]
  have sp : isLineEnd ' ' = false := by decide
  have tb : isLineEnd '\t' = false := by decide
  have sc : isCellEnd ' ' = false := by decide
  have la := plainField_line a ha
  have lb := plainField_line b hb
  have lc := plainField_line c hc
  have ld := plainField_line d hd
  have hline0 : ∀ x ∈ (([] ++ a.data ++ [' ']) ++ '\t' :: ((' ' :: b.data ++ [' ']) ++ '\t'
          :: ((' ' :: c.data ++ [' ']) ++ '\t' :: (' ' :: d.data ++ [])))),
      isLineEnd x = false := by
    simp only [List.forall_mem_append, List.forall_mem_cons, List.nil_append, List.append_nil,
      List.cons_append, List.not_mem_nil, false_implies, implies_true, and_true, sp, tb,
      true_and]
    exact ⟨la, lb, lc, ld⟩
  have hline : ∀ x ∈ (([] ++ a.data ++ [' ']) ++ '\t' :: ((' ' :: b.data ++ [' ']) ++ '\t'
          :: ((' ' :: c.data ++ [' ']) ++ '\t' :: (' ' :: d.data ++ [])))),
      ¬ (isLineEnd x = true) := fun x hx => ne_true_of_eq_false (hline0 x hx)
  unfold tabwriterLines
  rw [e, List.splitOnP_first isLineEnd _ hline '\n' (by decide)]
  simp only [List.splitOnP_nil, List.dropLast, List.map]
  have ca : ∀ x ∈ [] ++ a.data ++ [' '], ¬ (isCellEnd x = true) := by
    intro x hx
    simp only [List.nil_append, List.mem_append, List.mem_singleton] at hx
    rcases hx with h | h
    · exact ne_true_of_eq_false (plainField_cell a ha x h)
    · subst h; exact ne_true_of_eq_false sc
  have cd : ∀ x ∈ ' ' :: d.data ++ [], ¬ (isCellEnd x = true) := by
    intro x hx
    simp only [List.append_nil, List.mem_cons] at hx
    rcases hx with h | h
    · subst h; exact ne_true_of_eq_false sc
    · exact ne_true_of_eq_false (plainField_cell d hd x h)
  rw [splitOnP_four isCellEnd _ _ _ _ '\t' (by decide) ca
    (forall_mem_padded b.data sc (plainField_cell b hb))
    (forall_mem_padded c.data sc (plainField_cell c hc)) cd]
  simp only [List.map, List.nil_append, List.append_nil]
  rfl

/-- C11 (as stated, refuted): for a devfile entry whose description holds a tab
character, the chunk that `printDevfileCatalogList` writes, also through
table-mode `Run`, is a line of five cells, not four; for a description holding
a newline the chunk written for the one entry is two lines, of two and three
cells. -/
theorem devfile_row_with_tab_or_newline :
    printDevfileCatalogList [] [tabbedDevfile] "YES"
        = ["java \t Java\tdevfile \t DefaultDevfileRegistry \t YES\n"]
    ∧ (Run false sampleLookup (mkOptions false [] [tabbedDevfile])).2
        = Output.table
            ["Odo Devfile Components:\n", "NAME \t DESCRIPTION \t REGISTRY \t SUPPORTED\n",
             "java \t Java\tdevfile \t DefaultDevfileRegistry \t YES\n", "\n"]
    ∧ tabwriterLines "java \t Java\tdevfile \t DefaultDevfileRegistry \t YES\n"
        = [["java ", " Java", "devfile ", " DefaultDevfileRegistry ", " YES"]]
    ∧ printDevfileCatalogList [] [twoLineDevfile] "YES"
        = ["java \t line1\nline2 \t DefaultDevfileRegistry \t YES\n"]
    ∧ tabwriterLines "java \t line1\nline2 \t DefaultDevfileRegistry \t YES\n"
        = [["java ", " line1"], ["line2 ", " DefaultDevfileRegistry ", " YES"]] := by
  decide

/-- C11 (amended): `printCatalogList` makes one `Fprintln` call per entry of
the section, in order, writing the display name, the namespace, the
`NonHiddenTags` joined with ",", and the supported indicator, in this order,
each two separated by a tab between two spaces, and ended by a newline;
`printDevfileCatalogList` does the same with name, description, registry name
and indicator. When none of the four fields holds a horizontal tab, vertical
tab, newline or form feed, what is written for the entry is one line of exactly
four cells, holding the four fields in order. `Run` passes "YES" for a
supported partition and "NO" for an unsupported one. -/
theorem table_row_columns (o : ListComponentsOptions) (w : List String)
    (catalogList : List ComponentType) (catalogDevfileList : List DevfileComponentType)
    (supported : String) :
    printCatalogList o w catalogList supported
        = w ++ catalogList.map (fun component =>
            componentName o catalogList component ++ " \t "
              ++ component.ObjectMeta.Namespace ++ " \t "
              ++ String.intercalate "," component.Spec.NonHiddenTags ++ " \t "
              ++ supported ++ "\n")
    ∧ printDevfileCatalogList w catalogDevfileList supported
        = w ++ catalogDevfileList.map (fun devfileComponent =>
            devfileComponent.Name ++ " \t " ++ devfileComponent.Description ++ " \t "
              ++ devfileComponent.Registry.Name ++ " \t " ++ supported ++ "\n")
    ∧ (∀ component : ComponentType,
        plainField component.ObjectMeta.Name = true →
        plainField component.ObjectMeta.Namespace = true →
        plainField (String.intercalate "," component.Spec.NonHiddenTags) = true →
        plainField supported = true →
        tabwriterLines (componentName o catalogList component ++ " \t "
              ++ component.ObjectMeta.Namespace ++ " \t "
              ++ String.intercalate "," component.Spec.NonHiddenTags ++ " \t "
              ++ supported ++ "\n")
          = [[componentName o catalogList component ++ " ",
              " " ++ component.ObjectMeta.Namespace ++ " ",
              " " ++ String.intercalate "," component.Spec.NonHiddenTags ++ " ",
              " " ++ supported]])
    ∧ (∀ devfileComponent : DevfileComponentType,
        plainField devfileComponent.Name = true →
        plainField devfileComponent.Description = true →
        plainField devfileComponent.Registry.Name = true →
        plainField supported = true →
        tabwriterLines (devfileComponent.Name ++ " \t " ++ devfileComponent.Description
              ++ " \t " ++ devfileComponent.Registry.Name ++ " \t " ++ supported ++ "\n")
          = [[devfileComponent.Name ++ " ", " " ++ devfileComponent.Description ++ " ",
              " " ++ devfileComponent.Registry.Name ++ " ", " " ++ supported]])
    ∧ (∀ sup unsup : List ComponentType,
        writeImageSection o w sup unsup
          = w ++ (if sup ≠ [] ∨ unsup ≠ [] then
              ["Odo OpenShift Components:\n", "NAME \t PROJECT \t TAGS \t SUPPORTED\n"]
                ++ (printCatalogList o [] sup "YES" ++ printCatalogList o [] unsup "NO")
                ++ ["\n"]
            else []))
    ∧ (∀ sup unsup : List DevfileComponentType,
        writeDevfileSection o w sup unsup
          = w ++ (if sup ≠ [] ∨ (o.listAllDevfileComponents = true ∧ unsup ≠ []) then
              ["Odo Devfile Components:\n", "NAME \t DESCRIPTION \t REGISTRY \t SUPPORTED\n"]
                ++ (printDevfileCatalogList [] sup "YES"
                    ++ (if o.listAllDevfileComponents = true then
                          printDevfileCatalogList [] unsup "NO"
                        else []))
                ++ ["\n"]
            else [])) := by
  refine ⟨?_, ?_, ?_, ?_, ?_, ?_⟩
  · rw [printCatalogList_eq]
    congr 1
    apply List.map_congr_left
    intro component _
    unfold catalogRow
    rw [Sprintln_row]
  · rw [printDevfileCatalogList_eq]
    congr 1
    apply List.map_congr_left
    intro devfileComponent _
    unfold devfileRow
    rw [Sprintln_row]
  · intro component h1 h2 h3 h4
    rw [← Sprintln_row,
      tabwriterLines_row _ _ _ _ (componentName_plain o catalogList component h1) h2 h3 h4]
  · intro devfileComponent h1 h2 h3 h4
    rw [← Sprintln_row, tabwriterLines_row _ _ _ _ h1 h2 h3 h4]
  · intro sup unsup
    rw [writeImageSection_eq, printCatalogList_eq, printCatalogList_eq]
    simp [List.length_eq_zero]
  · intro sup unsup
    rw [writeDevfileSection_eq, printDevfileCatalogList_eq, printDevfileCatalogList_eq]
    simp [List.length_eq_zero]

/-- Witness for C11: the row of a "nodejs" entry of the active namespace, whose
fields are plain, is one line of the four cells in order. -/
theorem table_row_columns_witness :
    tabwriterLines ("nodejs \t openshift \t 8,10 \t YES\n")
      = [["nodejs ", " openshift ", " 8,10 ", " YES"]] :=
  (table_row_columns (mkOptions false [] []) [] [mkImage "nodejs" "openshift" ["8", "10"]]
      [] "YES").2.2.1 (mkImage "nodejs" "openshift" ["8", "10"])
    (by decide) (by decide) (by decide) (by decide)

/-! ## Sections of the table -/

theorem imageSection_eq (L : TagLookup) (o : ListComponentsOptions) :
    imageSection L o
      = (if (partitionImages L o.catalogList.Items).1 ≠ []
            ∨ (partitionImages L o.catalogList.Items).2 ≠ [] then
          ["Odo OpenShift Components:\n", "NAME \t PROJECT \t TAGS \t SUPPORTED\n"]
            ++ (partitionImages L o.catalogList.Items).1.map
                (catalogRow o (partitionImages L o.catalogList.Items).1 "YES")
            ++ (partitionImages L o.catalogList.Items).2.map
                (catalogRow o (partitionImages L o.catalogList.Items).2 "NO")
            ++ ["\n"]
        else []) := by
  unfold imageSection
  rw [writeImageSection_eq]
  simp only [List.nil_append, ne_eq, List.length_eq_zero]

theorem devfileSection_eq (o : ListComponentsOptions) :
    devfileSection o
      = (if o.catalogDevfileList.Items.filter (fun d => d.Support) ≠ []
            ∨ (o.listAllDevfileComponents = true
                ∧ o.catalogDevfileList.Items.filter (fun d => !d.Support) ≠ []) then
          ["Odo Devfile Components:\n", "NAME \t DESCRIPTION \t REGISTRY \t SUPPORTED\n"]
            ++ (o.catalogDevfileList.Items.filter (fun d => d.Support)).map (devfileRow "YES")
            ++ (if o.listAllDevfileComponents = true then
                  (o.catalogDevfileList.Items.filter (fun d => !d.Support)).map (devfileRow "NO")
                else [])
            ++ ["\n"]
        else []) := by
  unfold devfileSection
  rw [writeDevfileSection_eq, partitionDevfiles_eq]
  simp only [List.nil_append, ne_eq, List.length_eq_zero]

theorem Sprintln_row_ne_blank (a b c d : String) :
    Sprintln [a, "\t", b, "\t", c, "\t", d] ≠ "\n" := by
  intro h
  have h2 := congrArg String.length h
  rw [Sprintln_row] at h2
  simp only [String.length_append] at h2
  have e1 : (" \t " : String).length = 3 := by decide
  have e2 : ("\n" : String).length = 1 := by decide
  rw [e1, e2] at h2
  omega

theorem count_blank_map_rows {α : Type} (g : α → String)
    (hg : ∀ a, g a ≠ "\n") (l : List α) : (l.map g).count "\n" = 0 := by
  rw [List.count_eq_zero]
  intro h
  obtain ⟨a, _, ha⟩ := List.mem_map.mp h
  exact hg a ha

theorem catalogRow_ne_blank (o : ListComponentsOptions) (catalogList : List ComponentType)
    (supported : String) (component : ComponentType) :
    catalogRow o catalogList supported component ≠ "\n" :=
  Sprintln_row_ne_blank _ _ _ _

theorem devfileRow_ne_blank (supported : String) (devfileComponent : DevfileComponentType) :
    devfileRow supported devfileComponent ≠ "\n" :=
  Sprintln_row_ne_blank _ _ _ _

/-- C12: table-mode `Run` writes the image section, then the devfile section.
The image section is written exactly when the supported or the unsupported
image partition has a row; it is then the title line, the header line, all
supported rows, all unsupported rows, and one blank line, the only blank line
of the section. The devfile section, when it has a row to show, is its title,
its header, the rows shown, and one closing blank line. A section with no row
to show writes no line at all. -/
theorem Run_table_section_layout (SliceSupportedTags : TagLookup)
    (o : ListComponentsOptions) :
    (Run false SliceSupportedTags o).2
        = Output.table (imageSection SliceSupportedTags o ++ devfileSection o)
    ∧ imageSection SliceSupportedTags o
        = (if (partitionImages SliceSupportedTags o.catalogList.Items).1 ≠ []
              ∨ (partitionImages SliceSupportedTags o.catalogList.Items).2 ≠ [] then
            ["Odo OpenShift Components:\n", "NAME \t PROJECT \t TAGS \t SUPPORTED\n"]
              ++ (partitionImages SliceSupportedTags o.catalogList.Items).1.map
                  (catalogRow o (partitionImages SliceSupportedTags o.catalogList.Items).1 "YES")
              ++ (partitionImages SliceSupportedTags o.catalogList.Items).2.map
                  (catalogRow o (partitionImages SliceSupportedTags o.catalogList.Items).2 "NO")
              ++ ["\n"]
          else [])
    ∧ (imageSection SliceSupportedTags o ≠ []
        ↔ (partitionImages SliceSupportedTags o.catalogList.Items).1 ≠ []
            ∨ (partitionImages SliceSupportedTags o.catalogList.Items).2 ≠ [])
    ∧ (imageSection SliceSupportedTags o).count "\n"
        = (if (partitionImages SliceSupportedTags o.catalogList.Items).1 ≠ []
              ∨ (partitionImages SliceSupportedTags o.catalogList.Items).2 ≠ [] then 1 else 0)
    ∧ devfileSection o
        = (if (partitionDevfiles o.catalogDevfileList.Items).1.map (devfileRow "YES")
                ++ (if o.listAllDevfileComponents = true then
                      (partitionDevfiles o.catalogDevfileList.Items).2.map (devfileRow "NO")
                    else []) ≠ [] then
            ["Odo Devfile Components:\n", "NAME \t DESCRIPTION \t REGISTRY \t SUPPORTED\n"]
              ++ ((partitionDevfiles o.catalogDevfileList.Items).1.map (devfileRow "YES")
                  ++ (if o.listAllDevfileComponents = true then
                        (partitionDevfiles o.catalogDevfileList.Items).2.map (devfileRow "NO")
                      else []))
              ++ ["\n"]
          else [])
    ∧ (devfileSection o).count "\n" = (if devfileSection o ≠ [] then 1 else 0) := by
  have t1 : ("Odo OpenShift Components:\n" == "\n") = false := by decide
  have t2 : ("NAME \t PROJECT \t TAGS \t SUPPORTED\n" == "\n") = false := by decide
  have t3 : ("Odo Devfile Components:\n" == "\n") = false := by decide
  have t4 : ("NAME \t DESCRIPTION \t REGISTRY \t SUPPORTED\n" == "\n") = false := by decide
  refine ⟨by rw [Run_table_eq], imageSection_eq _ _, ?_, ?_, ?_, ?_⟩
  · rw [imageSection_eq]
    split <;> simp_all
  · rw [imageSection_eq]
    split
    · simp [List.count_append, List.count_cons, t1, t2,
        count_blank_map_rows _ (catalogRow_ne_blank o _ _)]
    · simp
  · rw [devfileSection_eq, partitionDevfiles_eq]
    by_cases ha : o.listAllDevfileComponents = true <;>
      by_cases h1 : o.catalogDevfileList.Items.filter (fun d => d.Support) = [] <;>
      by_cases h2 : o.catalogDevfileList.Items.filter (fun d => !d.Support) = [] <;>
      simp [ha, h1, h2]
  · rw [devfileSection_eq]
    split
    · by_cases ha : o.listAllDevfileComponents = true <;>
        simp [List.count_append, List.count_cons, t3, t4, ha,
          count_blank_map_rows _ (devfileRow_ne_blank _)]
    · simp

/-! ## The --all flag and the image section -/

/-- C13: two table-mode runs that differ only in `listAllDevfileComponents`
compute the same supported and unsupported image partitions and write the same
image-section lines; the flag reaches the devfile section only. -/
theorem all_flag_does_not_reach_images (SliceSupportedTags : TagLookup)
    (o : ListComponentsOptions) (all1 all2 : Bool) :
    partitionImages SliceSupportedTags
        ({ o with listAllDevfileComponents := all1 }).catalogList.Items
      = partitionImages SliceSupportedTags
        ({ o with listAllDevfileComponents := all2 }).catalogList.Items
    ∧ imageSection SliceSupportedTags { o with listAllDevfileComponents := all1 }
      = imageSection SliceSupportedTags { o with listAllDevfileComponents := all2 }
    ∧ (Run false SliceSupportedTags { o with listAllDevfileComponents := all1 }).2
      = Output.table (imageSection SliceSupportedTags o
          ++ devfileSection { o with listAllDevfileComponents := all1 })
    ∧ (Run false SliceSupportedTags { o with listAllDevfileComponents := all2 }).2
      = Output.table (imageSection SliceSupportedTags o
          ++ devfileSection { o with listAllDevfileComponents := all2 }) := by
  refine ⟨rfl, rfl, ?_, ?_⟩
  · rw [Run_table_eq]; rfl
  · rw [Run_table_eq]; rfl

/-! ## Repeating the disambiguation -/

theorem printCatalogListOnSlice_prefix (o : ListComponentsOptions) (w : List String)
    (catalogList : List ComponentType) (supported : String) (n : Nat)
    (hn : n ≤ catalogList.length) :
    (List.range n).foldl
      (fun (st : List String × List ComponentType) i =>
        match st.2[i]? with
        | some component =>
          (Fprintln st.1 [componentName o st.2 component, "\t",
            component.ObjectMeta.Namespace, "\t",
            String.intercalate "," component.Spec.NonHiddenTags, "\t", supported], st.2)
        | none => st)
      (w, catalogList)
    = (w ++ (catalogList.take n).map (catalogRow o catalogList supported), catalogList) := by
  induction n with
  | zero => simp
  | succ n ih =>
    rw [List.range_succ, List.foldl_append, ih (Nat.le_of_succ_le hn)]
    have hlt : n < catalogList.length := hn
    simp only [List.foldl_cons, List.foldl_nil, List.getElem?_eq_getElem hlt]
    rw [List.take_succ, List.getElem?_eq_getElem hlt]
    simp only [Fprintln, Option.toList, List.map_append, List.map_cons, List.map_nil,
      List.append_assoc]
    rfl

theorem printCatalogListOnSlice_eq (o : ListComponentsOptions) (w : List String)
    (catalogList : List ComponentType) (supported : String) :
    printCatalogListOnSlice o w catalogList supported
      = (w ++ catalogList.map (catalogRow o catalogList supported), catalogList) := by
  unfold printCatalogListOnSlice
  have h := printCatalogListOnSlice_prefix o w catalogList supported catalogList.length
    (Nat.le_refl _)
  rw [List.take_length] at h
  rw [← h]

/-- C14: `printCatalogList` leaves the section it was given unchanged, every
row with its name, namespace and tags, and writes for it the lines of the
mirror that `Run` calls. A second run on the section as the first run left it,
with the same active namespace, therefore appends exactly the lines of the
first run, with the same label for every row. For the two "nodejs" entries of
namespaces "openshift" (active) and "other-ns" both runs write the labels
"nodejs (*)" and "nodejs". -/
theorem printCatalogList_idempotent (o : ListComponentsOptions) (w : List String)
    (catalogList : List ComponentType) (supported : String) :
    (printCatalogListOnSlice o w catalogList supported).2 = catalogList
    ∧ (printCatalogListOnSlice o w catalogList supported).1
        = printCatalogList o w catalogList supported
    ∧ printCatalogListOnSlice o
          (printCatalogListOnSlice o w catalogList supported).1
          (printCatalogListOnSlice o w catalogList supported).2 supported
        = (w ++ catalogList.map (fun component =>
                Sprintln [componentName o catalogList component, "\t",
                  component.ObjectMeta.Namespace, "\t",
                  String.intercalate "," component.Spec.NonHiddenTags, "\t", supported])
             ++ catalogList.map (fun component =>
                Sprintln [componentName o catalogList component, "\t",
                  component.ObjectMeta.Namespace, "\t",
                  String.intercalate "," component.Spec.NonHiddenTags, "\t", supported]),
           catalogList)
    ∧ printCatalogListOnSlice (mkOptions false [] [])
          (printCatalogListOnSlice (mkOptions false [] []) []
            [mkImage "nodejs" "openshift" ["8"], mkImage "nodejs" "other-ns" ["8"]] "YES").1
          (printCatalogListOnSlice (mkOptions false [] []) []
            [mkImage "nodejs" "openshift" ["8"], mkImage "nodejs" "other-ns" ["8"]] "YES").2
          "YES"
        = (["nodejs (*) \t openshift \t 8 \t YES\n", "nodejs \t other-ns \t 8 \t YES\n",
            "nodejs (*) \t openshift \t 8 \t YES\n", "nodejs \t other-ns \t 8 \t YES\n"],
           [mkImage "nodejs" "openshift" ["8"], mkImage "nodejs" "other-ns" ["8"]]) := by
  refine ⟨?_, ?_, ?_, by decide⟩
  · rw [printCatalogListOnSlice_eq]
  · rw [printCatalogListOnSlice_eq, printCatalogList_eq]
  · rw [printCatalogListOnSlice_eq, printCatalogListOnSlice_eq]
    rfl

/-! ## Devfile routing -/

/-- C15: the devfile loop of table-mode `Run` routes by the `Support` flag
alone: the supported sequence is the listing filtered to `Support = true`, the
unsupported sequence is the listing filtered to `Support = false`, both in
input order; every entry of the listing lands, unmodified, in exactly one of
the two, and the two lengths sum to the length of the listing. -/
theorem partitionDevfiles_routes_by_flag (items : List DevfileComponentType) :
    (partitionDevfiles items).1 = items.filter (fun d => d.Support)
    ∧ (partitionDevfiles items).2 = items.filter (fun d => !d.Support)
    ∧ (∀ d : DevfileComponentType,
        (d ∈ (partitionDevfiles items).1 ↔ d ∈ items ∧ d.Support = true)
        ∧ (d ∈ (partitionDevfiles items).2 ↔ d ∈ items ∧ d.Support = false)
        ∧ ¬ (d ∈ (partitionDevfiles items).1 ∧ d ∈ (partitionDevfiles items).2)
        ∧ (partitionDevfiles items).1.count d + (partitionDevfiles items).2.count d
            = items.count d)
    ∧ (partitionDevfiles items).1.length + (partitionDevfiles items).2.length = items.length
    ∧ ((partitionDevfiles items).1 ++ (partitionDevfiles items).2).Perm items := by
  rw [partitionDevfiles_eq]
  refine ⟨rfl, rfl, ?_, ?_, ?_⟩
  · intro d
    refine ⟨by simp [List.mem_filter], by simp [List.mem_filter], ?_, ?_⟩
    · simp only [List.mem_filter]
      rintro ⟨⟨_, h1⟩, ⟨_, h2⟩⟩
      simp [h1] at h2
    · have hp := (List.filter_append_perm (fun d : DevfileComponentType => d.Support) items).count_eq d
      rw [List.count_append] at hp
      exact hp
  · have hp := (List.filter_append_perm (fun d : DevfileComponentType => d.Support) items).length_eq
    rw [List.length_append] at hp
    exact hp
  · exact List.filter_append_perm (fun d : DevfileComponentType => d.Support) items

/-! ## The marker is decided per section -/

/-- C16: the marker is decided per written section. With active namespace
"openshift", a "nodejs" entry of that namespace with a supported tag "8" and an
unsupported tag "old", and a "nodejs" entry of "other-ns" with the supported
tag "10" only, the active-namespace entry is labelled "nodejs (*)" in the
supported section and "nodejs" in the unsupported section. -/
theorem marker_is_per_section :
    partitionImages sampleLookup twoNamespaces.catalogList.Items
        = ([setNonHiddenTags (mkImage "nodejs" "openshift" ["8", "old"]) ["8"],
            setNonHiddenTags (mkImage "nodejs" "other-ns" ["10"]) ["10"]],
           [setNonHiddenTags (mkImage "nodejs" "openshift" ["8", "old"]) ["old"]])
    ∧ componentName twoNamespaces
          (partitionImages sampleLookup twoNamespaces.catalogList.Items).1
          (setNonHiddenTags (mkImage "nodejs" "openshift" ["8", "old"]) ["8"]) = "nodejs (*)"
    ∧ componentName twoNamespaces
          (partitionImages sampleLookup twoNamespaces.catalogList.Items).2
          (setNonHiddenTags (mkImage "nodejs" "openshift" ["8", "old"]) ["old"]) = "nodejs"
    ∧ (Run false sampleLookup twoNamespaces).2
        = Output.table
            ["Odo OpenShift Components:\n", "NAME \t PROJECT \t TAGS \t SUPPORTED\n",
             "nodejs (*) \t openshift \t 8 \t YES\n",
             "nodejs \t other-ns \t 10 \t YES\n",
             "nodejs \t openshift \t old \t NO\n",
             "\n"] := by
  decide

/-! ## Validate and table output -/

/-- C17: passing `Validate` does not guarantee table output: a devfile listing
holding only an unsupported entry with `--all` unset, and an image listing
whose only entry has no tags, are both accepted by `Validate` while table-mode
`Run` writes no line. Conversely, whenever table-mode `Run` writes at least one
line, `Validate` returns no error. -/
theorem Run_table_output_and_Validate (SliceSupportedTags : TagLookup)
    (o : ListComponentsOptions) :
    (Validate (mkOptions false [] [mkDevfile "java" false]) = none
      ∧ (Run false sampleLookup (mkOptions false [] [mkDevfile "java" false])).2
          = Output.table [])
    ∧ (Validate (mkOptions false [mkImage "empty" "openshift" []] []) = none
      ∧ (Run false sampleLookup (mkOptions false [mkImage "empty" "openshift" []] [])).2
          = Output.table [])
    ∧ ((Run false SliceSupportedTags o).2 ≠ Output.table [] → Validate o = none) := by
  refine ⟨by decide, by decide, ?_⟩
  intro h
  rw [Run_table_eq] at h
  by_contra hv
  have hboth : o.catalogList.Items = [] ∧ o.catalogDevfileList.Items = [] := by
    unfold Validate at hv
    by_cases hc : o.catalogList.Items.length = 0 ∧ o.catalogDevfileList.Items.length = 0
    · exact ⟨List.length_eq_zero.mp hc.1, List.length_eq_zero.mp hc.2⟩
    · rw [if_neg hc] at hv
      exact absurd rfl hv
  apply h
  rw [imageSection_eq, devfileSection_eq, partitionImages_eq, hboth.1, hboth.2]
  simp

/-- Witness for C17: a state with one supported devfile entry writes lines and
is accepted by `Validate`. -/
theorem Run_table_output_and_Validate_witness :
    Validate (mkOptions false [] [mkDevfile "java" true]) = none :=
  (Run_table_output_and_Validate sampleLookup (mkOptions false [] [mkDevfile "java" true])).2.2
    (by decide)

end Odo
